import Mathlib

/-!
Verification of the truepick (Nopamine) purchase-analysis pipeline.

The repository declares a LangGraph-style dual-process cognitive workflow
(src/backend/app/agents.py), a RAG retrieval subsystem (src/backend/app/rag.py)
and supporting DTO / database modules.  Every function body in the repository is
the Python statement `pass`, so the declared operations literally return `None`.

This development contains two layers:

* `Code`: a literal shallow embedding of the stub functions exactly as they
  appear in the source (each body is `pass`, i.e. every call returns `None`,
  modelled as `Option.none`).
* `Spec`: executable models of the missing algorithm bodies, modelled from the
  specification's words (resolution table, inclusive affordability threshold,
  retrieval ranking, idempotent ingestion, profile validation, degraded-context
  evaluation, and the fan-out/fan-in workflow state machine).
-/

namespace Truepick

namespace Code

/-- `AgentState` from src/backend/app/agents.py: a `TypedDict` declared with no
fields (`pass` body).  Python `TypedDict` values are dictionaries, so the state
is modelled as a finite string-keyed dictionary of string slots. -/
def AgentState := List (String × String)

instance : DecidableEq AgentState := by
  unfold AgentState
  infer_instance

/-- Literal embedding of `node_profiler` (src/backend/app/agents.py lines 25-38):
the body is `pass`, so the call returns Python `None` for every state. -/
def node_profiler (_state : AgentState) : Option AgentState := none

/-- Literal embedding of `node_psychologist` (src/backend/app/agents.py lines
41-56): the body is `pass`, so the call returns Python `None` for every state. -/
def node_psychologist (_state : AgentState) : Option AgentState := none

/-- Literal embedding of `node_decision_maker` (src/backend/app/agents.py lines
59-72): the body is `pass`, so the call returns Python `None` for every state. -/
def node_decision_maker (_state : AgentState) : Option AgentState := none

/-- Literal embedding of `node_synthesizer` (src/backend/app/agents.py lines
75-90): the body is `pass`, so the call returns Python `None` for every state. -/
def node_synthesizer (_state : AgentState) : Option AgentState := none

/-- Literal embedding of `retrieve_context` (src/backend/app/rag.py lines 41-56):
declared to return `str`, but the body is `pass`, so every call returns Python
`None` (modelled as `Option.none`), never a concatenated context string. -/
def retrieve_context (_query : String) (_k : Nat) : Option String := none

/-- Literal embedding of `ingest_knowledge_base` (src/backend/app/rag.py lines
25-38): declared to return `int`, but the body is `pass`, so every call returns
Python `None` (modelled as `Option.none`), never a chunk count. -/
def ingest_knowledge_base (_directory_path : String) : Option Int := none

end Code

namespace Spec

/-- Modelled from the spec: risk-tolerance enumeration of the
`PsychographicProfile` data model (spec §3), missing from the source because
`models.py` declares the profile class with a `pass` body. -/
inductive RiskTolerance
  | low
  | medium
  | high
deriving DecidableEq, Repr

/-- Modelled from the spec: the `PsychographicProfile` record of spec §3 (risk
tolerance, non-negative declared monthly budget, income band, susceptibility
tags, free-text values), missing from the source (`models.py` body is `pass`). -/
structure PsychographicProfile where
  riskTolerance : RiskTolerance
  monthlyBudget : ℚ
  incomeBand : String
  susceptibilityTags : List String
  valuesText : String
deriving DecidableEq, Repr

/-- Modelled from the spec: the verdict-relevant heuristic label of spec §3
(impulsive / values-aligned / neutral). -/
inductive HeuristicLabel
  | impulsive
  | valuesAligned
  | neutral
deriving DecidableEq, Repr

/-- Modelled from the spec: `HeuristicAssessment` of spec §3 — label, detected
triggers and free-text rationale. -/
structure HeuristicAssessment where
  label : HeuristicLabel
  triggers : List String
  rationale : String
deriving DecidableEq, Repr

/-- Modelled from the spec: `AnalyticAssessment` of spec §3 — boolean
affordability verdict plus free-text rationale. -/
structure AnalyticAssessment where
  affordable : Bool
  rationale : String
deriving DecidableEq, Repr

/-- Modelled from the spec: the final verdict labels of spec §3/§4.7. -/
inductive VerdictLabel
  | approve
  | approveWithCaveats
  | warn
  | reject
deriving DecidableEq, Repr

/-- Modelled from the spec: `SynthesisVerdict` of spec §3 — final label plus
free-text rationale. -/
structure SynthesisVerdict where
  label : VerdictLabel
  rationale : String
deriving DecidableEq, Repr

/-- The impulsive-flag boolean of the resolution table (spec §4.7): whether the
heuristic assessment carries the `impulsive` label. -/
def impulsiveFlag (h : HeuristicAssessment) : Bool :=
  h.label = HeuristicLabel.impulsive

/-- Modelled from the spec: the deterministic resolution table of spec §4.7,
applied before any free-text elaboration.  The `node_synthesizer` body in
src/backend/app/agents.py is `pass`, so the table is taken from the spec:
affordable ∧ ¬impulsive ↦ approve; affordable ∧ impulsive ↦
approve-with-caveats; ¬affordable ∧ ¬impulsive ↦ explore-compromise, treated
as approve-with-caveats; ¬affordable ∧ impulsive ↦ reject. -/
def synthLabel (affordable impulsive : Bool) : VerdictLabel :=
  match affordable, impulsive with
  | true, false => VerdictLabel.approve
  | true, true => VerdictLabel.approveWithCaveats
  | false, false => VerdictLabel.approveWithCaveats
  | false, true => VerdictLabel.reject

/-- Modelled from the spec: `synthesize(heuristic, analytic)` of spec §4.7.
The label comes from the resolution table only; the opaque Reasoner (here the
function argument `reasoner`) is invoked only for the supporting rationale text
and never overrides the table-determined label. -/
def synthesize (reasoner : String → String) (h : HeuristicAssessment)
    (a : AnalyticAssessment) : SynthesisVerdict :=
  { label := synthLabel a.affordable (impulsiveFlag h)
    rationale := reasoner (h.rationale ++ " | " ++ a.rationale) }

/-- Modelled from the spec: the affordability boolean of the Analytic Evaluator
(spec §4.6) — price vs. budget with the boundary `price == budget` resolving to
affordable (inclusive threshold).  Missing from the source because the
`node_decision_maker` body is `pass`. -/
def affordability (price budget : ℚ) : Bool :=
  price ≤ budget

/-- Modelled from the spec: `evaluate(purchase, profile)` of the Analytic
Evaluator (spec §4.6).  Pure economic comparison of price against the
profile's budget; the Reasoner argument contributes only rationale text. -/
def evaluateAnalytic (reasoner : String → String) (price : ℚ)
    (p : PsychographicProfile) : AnalyticAssessment :=
  { affordable := affordability price p.monthlyBudget
    rationale := reasoner p.incomeBand }

/-- Modelled from the spec: the fixed-shape questionnaire response of spec
§4.4 (`QuizSubmission` in models.py has a `pass` body).  Optional fields model
answers that may be absent from a malformed or incomplete submission. -/
structure QuizSubmission where
  riskAnswer : Option String
  budgetAnswer : Option ℚ
  incomeAnswer : Option String
  tagAnswers : List String
  valuesAnswer : Option String
deriving DecidableEq, Repr

/-- Modelled from the spec: the `ValidationError` kind of spec §7 raised on
malformed or incomplete quiz input. -/
inductive ValidationError
  | missingField (name : String)
  | malformedField (name : String)
deriving DecidableEq, Repr

/-- Parses a risk-tolerance answer string into the enumeration; any other
string is malformed. -/
def parseRisk : String → Option RiskTolerance
  | "low" => some RiskTolerance.low
  | "medium" => some RiskTolerance.medium
  | "high" => some RiskTolerance.high
  | _ => none

/-- Completeness and well-formedness check for a quiz submission: every
required answer is present, the risk answer parses, and the declared budget is
non-negative. -/
def wellFormed (q : QuizSubmission) : Bool :=
  (q.riskAnswer.bind parseRisk).isSome &&
    (match q.budgetAnswer with
     | some b => decide (0 ≤ b)
     | none => false) &&
    q.incomeAnswer.isSome && q.valuesAnswer.isSome

/-- The fully-determined profile a well-formed submission compiles to: every
field is a function of the answers alone. -/
def profileOf (q : QuizSubmission) : PsychographicProfile :=
  { riskTolerance := (q.riskAnswer.bind parseRisk).getD RiskTolerance.low
    monthlyBudget := q.budgetAnswer.getD 0
    incomeBand := q.incomeAnswer.getD ""
    susceptibilityTags := q.tagAnswers
    valuesText := q.valuesAnswer.getD "" }

/-- Modelled from the spec: `compile(quiz_answers) -> PsychographicProfile` of
spec §4.4 (the `node_profiler` body in agents.py is `pass`).  A pure function
of the answer set that rejects malformed or incomplete answers with a
validation error instead of producing a partially-filled profile. -/
def compileProfile (q : QuizSubmission) :
    Except ValidationError PsychographicProfile :=
  match q.riskAnswer with
  | none => Except.error (ValidationError.missingField "risk")
  | some rs =>
    match parseRisk rs with
    | none => Except.error (ValidationError.malformedField "risk")
    | some rt =>
      match q.budgetAnswer with
      | none => Except.error (ValidationError.missingField "budget")
      | some b =>
        if b < 0 then Except.error (ValidationError.malformedField "budget")
        else
          match q.incomeAnswer with
          | none => Except.error (ValidationError.missingField "income")
          | some inc =>
            match q.valuesAnswer with
            | none => Except.error (ValidationError.missingField "values")
            | some v =>
              Except.ok
                { riskTolerance := rt
                  monthlyBudget := b
                  incomeBand := inc
                  susceptibilityTags := q.tagAnswers
                  valuesText := v }

/-- Modelled from the spec: one Embedding Store entry of spec §4.1 — an
embedding vector and the chunk text (metadata elided: no claim concerns it). -/
structure Entry where
  vec : List ℤ
  text : String
deriving DecidableEq, Repr

/-- Dot product of two vectors; on L2-normalized vectors this is cosine
similarity, the ranking metric of spec §4.1. -/
def dot : List ℤ → List ℤ → ℤ
  | [], _ => 0
  | _ :: _, [] => 0
  | x :: xs, y :: ys => x * y + dot xs ys

/-- Similarity score of a stored entry against a query vector. -/
def score (q : List ℤ) (e : Entry) : ℤ :=
  dot q e.vec

/-- Modelled from the spec: the Embedding Store contents — chunk-id keyed
entries (spec §4.1).  The real store (ChromaDB behind `get_vector_store`) is
an external collaborator; its body is `pass` in src/backend/app/rag.py. -/
abbrev EmbeddingStore := List (String × Entry)

/-- Ranking relation for retrieval: an entry precedes another when its
similarity score is at least as large (descending order). -/
def rankRel (q : List ℤ) (a b : String × Entry) : Prop :=
  score q b.2 ≤ score q a.2

instance (q : List ℤ) : DecidableRel (rankRel q) := fun a b =>
  inferInstanceAs (Decidable (score q b.2 ≤ score q a.2))

instance (q : List ℤ) : IsTotal (String × Entry) (rankRel q) :=
  ⟨fun a b => le_total (score q b.2) (score q a.2)⟩

instance (q : List ℤ) : IsTrans (String × Entry) (rankRel q) :=
  ⟨fun _ _ _ h1 h2 => le_trans h2 h1⟩

/-- Entries of the store ranked by descending similarity to the query vector
(spec §4.1 `query`). -/
def rank (q : List ℤ) (store : EmbeddingStore) : EmbeddingStore :=
  List.insertionSort (rankRel q) store

/-- Modelled from the spec: `RetrievedContext` of spec §3/§4.3 — the ordered
(chunk text, similarity score) pairs of the k nearest chunks. -/
def retrieveCtx (embed : String → List ℤ) (store : EmbeddingStore)
    (query : String) (k : Nat) : List (String × ℤ) :=
  ((rank (embed query) store).take k).map
    (fun p => (p.2.text, score (embed query) p.2))

/-- The deterministic separator used when concatenating chunk texts
(spec §4.3). -/
def contextSep : String :=
  "\n\n"

/-- Modelled from the spec: `retrieve_context(query, k)` of
src/backend/app/rag.py lines 41-56, whose body is `pass` — embeds the query,
finds the k nearest chunks and concatenates their texts in
descending-similarity order with a deterministic separator (spec §4.3). -/
def retrieve_context (embed : String → List ℤ) (store : EmbeddingStore)
    (query : String) (k : Nat) : String :=
  String.intercalate contextSep ((retrieveCtx embed store query k).map Prod.fst)

/-- Token ceiling per chunk (spec §4.2 gives 300-500 tokens; tokens are
modelled as characters, no tokenizer being specified). -/
def chunkSize : Nat := 400

/-- Overlap between consecutive chunks (spec §4.2 gives 10-20%). -/
def chunkOverlap : Nat := 50

/-- Fuel-indexed chunk splitter: emits windows of `chunkSize` characters,
stepping by `chunkSize - chunkOverlap` so consecutive chunks overlap.  The
fuel (initially the text length) dominates the number of steps, each of which
consumes 350 characters. -/
def chunkCharsAux : Nat → List Char → List (List Char)
  | 0, _ => []
  | _, [] => []
  | fuel + 1, l =>
    if l.length ≤ chunkSize then [l]
    else l.take chunkSize :: chunkCharsAux fuel (l.drop (chunkSize - chunkOverlap))

/-- Modelled from the spec: token-bounded chunking with a small overlap
(spec §4.2). -/
def chunkText (content : String) : List String :=
  (chunkCharsAux content.data.length content.data).map (fun cs => String.mk cs)

/-- A source document: file name plus raw text content (spec §4.2's readable
text-bearing files). -/
structure SrcFile where
  name : String
  content : String
deriving DecidableEq, Repr

/-- Stable chunk id derived from (source file, chunk index) — spec §4.2. -/
def chunkId (fileName : String) (idx : Nat) : String :=
  fileName ++ "#" ++ toString idx

/-- The keyed, embedded chunks of one source file, in index order. -/
def chunksOfFile (embed : String → List ℤ) (f : SrcFile) :
    List (String × Entry) :=
  (chunkText f.content).enum.map
    (fun p => (chunkId f.name p.1, Entry.mk (embed p.2) p.2))

/-- The keyed, embedded chunks of a whole source directory. -/
def chunksOfDir (embed : String → List ℤ) (dir : List SrcFile) :
    List (String × Entry) :=
  dir.flatMap (chunksOfFile embed)

/-- The chunk ids present in a store. -/
def keys (store : EmbeddingStore) : List String :=
  store.map Prod.fst

/-- Modelled from the spec: `upsert(chunk_id, ...)` of spec §4.1 — re-upserting
an existing id replaces prior content in place; a new id is appended.  No
error on new vs. existing id. -/
def upsert (store : EmbeddingStore) (cid : String) (e : Entry) :
    EmbeddingStore :=
  if cid ∈ keys store then
    store.map (fun p => if p.1 = cid then (cid, e) else p)
  else store ++ [(cid, e)]

/-- Upserts a batch of keyed chunks into the store, in order. -/
def ingestStore (store : EmbeddingStore) (cs : List (String × Entry)) :
    EmbeddingStore :=
  cs.foldl (fun st c => upsert st c.1 c.2) store

/-- Modelled from the spec: `ingest_knowledge_base(directory_path)` of
src/backend/app/rag.py lines 25-38, whose body is `pass` — chunks each file,
embeds each chunk, upserts each chunk under its stable id, and returns the
count of chunks written in this call (spec §4.2). -/
def ingest_knowledge_base (embed : String → List ℤ) (store : EmbeddingStore)
    (dir : List SrcFile) : EmbeddingStore × Nat :=
  (ingestStore store (chunksOfDir embed dir), (chunksOfDir embed dir).length)

/-- Every entry of the store whose key is `cid` is exactly `(cid, e)`. -/
def GoodAt (store : EmbeddingStore) (cid : String) (e : Entry) : Prop :=
  ∀ p ∈ store, p.1 = cid → p = (cid, e)

/-- The retrieval query the Heuristic Evaluator synthesizes from the item name
and the profile's susceptibility tags (spec §4.5). -/
def heuristicQuery (item : String) (p : PsychographicProfile) : String :=
  item ++ " " ++ String.intercalate " " p.susceptibilityTags

/-- Prompt for the degraded, profile-only path taken when the retrieved
context is empty (spec §4.5). -/
def profileOnlyPrompt (item : String) (p : PsychographicProfile) : String :=
  "item: " ++ item ++ " profile: " ++ p.valuesText

/-- Prompt combining the retrieved context with the profile (spec §4.5). -/
def ragPrompt (ctx : String) (item : String) (p : PsychographicProfile) :
    String :=
  "context: " ++ ctx ++ " item: " ++ item ++ " profile: " ++ p.valuesText

/-- Modelled from the spec: `evaluate(item_name, profile)` of the Heuristic
Evaluator (spec §4.5), whose `node_psychologist` body is `pass`: retrieve
context for a query synthesized from the item name, then invoke the Reasoner
(the `reasonH` argument, returning an already-parsed assessment); if the
retrieved context is empty, degrade to profile-only heuristic reasoning
instead of failing — absence of supporting literature is not an error. -/
def heuristicAssess (reasonH : String → HeuristicAssessment)
    (embed : String → List ℤ) (store : EmbeddingStore) (item : String)
    (p : PsychographicProfile) : HeuristicAssessment :=
  let ctx := retrieveCtx embed store (heuristicQuery item p) 3
  if ctx.isEmpty then reasonH (profileOnlyPrompt item p)
  else
    reasonH
      (ragPrompt (String.intercalate contextSep (ctx.map Prod.fst)) item p)

/-- The `PipelineState` slot record of spec §3: one named slot per stage, the
two parallel stages owning disjoint slots. -/
structure PipelineSlots where
  profile : Option PsychographicProfile
  heuristic : Option HeuristicAssessment
  analytic : Option AnalyticAssessment
  synthesis : Option SynthesisVerdict
deriving DecidableEq, Repr

/-- Workflow phases of the state machine of spec §4.8. -/
inductive Phase
  | start
  | profiled
  | evaluating
  | synthesized
  | done
deriving DecidableEq, Repr

/-- A workflow-engine state: the current phase plus the pipeline slots. -/
structure WfState where
  phase : Phase
  slots : PipelineSlots
deriving DecidableEq, Repr

/-- The external inputs and opaque collaborators of one workflow run: quiz
answers, purchase details, the three Reasoner roles, the embedding function
and the Embedding Store contents. -/
structure RunConfig where
  quiz : QuizSubmission
  itemName : String
  price : ℚ
  reasonH : String → HeuristicAssessment
  reasonA : String → String
  reasonS : String → String
  embed : String → List ℤ
  store : EmbeddingStore

/-- The initial workflow state: phase `start`, all slots empty. -/
def initState : WfState :=
  WfState.mk Phase.start (PipelineSlots.mk none none none none)

/-- Modelled from the spec: the transition relation of the workflow engine
(spec §4.8), wired by `compile_workflow` in src/backend/app/agents.py whose
body is `pass`.  Profiling fills the profile slot; during `evaluating` the two
evaluator branches fire in either order, each writing only its own slot; the
transition to `synthesized` is the join barrier: it is enabled only when both
parallel slots are populated, and it is the only transition that writes the
synthesis slot. -/
inductive Step (cfg : RunConfig) : WfState → WfState → Prop
  | profile (sl : PipelineSlots) (p : PsychographicProfile)
      (hp : compileProfile cfg.quiz = Except.ok p) :
      Step cfg (WfState.mk Phase.start sl)
        (WfState.mk Phase.profiled
          (PipelineSlots.mk (some p) sl.heuristic sl.analytic sl.synthesis))
  | fanOut (sl : PipelineSlots) :
      Step cfg (WfState.mk Phase.profiled sl) (WfState.mk Phase.evaluating sl)
  | heuristicBranch (sl : PipelineSlots) (p : PsychographicProfile)
      (hp : sl.profile = some p) (hempty : sl.heuristic = none) :
      Step cfg (WfState.mk Phase.evaluating sl)
        (WfState.mk Phase.evaluating
          (PipelineSlots.mk sl.profile
            (some (heuristicAssess cfg.reasonH cfg.embed cfg.store
              cfg.itemName p))
            sl.analytic sl.synthesis))
  | analyticBranch (sl : PipelineSlots) (p : PsychographicProfile)
      (hp : sl.profile = some p) (hempty : sl.analytic = none) :
      Step cfg (WfState.mk Phase.evaluating sl)
        (WfState.mk Phase.evaluating
          (PipelineSlots.mk sl.profile sl.heuristic
            (some (evaluateAnalytic cfg.reasonA cfg.price p)) sl.synthesis))
  | join (sl : PipelineSlots) (h : HeuristicAssessment)
      (a : AnalyticAssessment) (hh : sl.heuristic = some h)
      (ha : sl.analytic = some a) :
      Step cfg (WfState.mk Phase.evaluating sl)
        (WfState.mk Phase.synthesized
          (PipelineSlots.mk sl.profile sl.heuristic sl.analytic
            (some (synthesize cfg.reasonS h a))))
  | finish (sl : PipelineSlots) :
      Step cfg (WfState.mk Phase.synthesized sl) (WfState.mk Phase.done sl)

/-- Reachability from the initial state under the workflow transitions. -/
def Reachable (cfg : RunConfig) (s : WfState) : Prop :=
  Relation.ReflTransGen (Step cfg) initState s

/-- Modelled from the spec: the single `run` entry point of the Workflow
Engine (spec §4.8/§6) in the canonical schedule — profile, both evaluators,
join, finish.  A validation failure aborts the run before any evaluator. -/
def runWorkflow (cfg : RunConfig) : Except ValidationError WfState :=
  match compileProfile cfg.quiz with
  | Except.error e => Except.error e
  | Except.ok p =>
    let h := heuristicAssess cfg.reasonH cfg.embed cfg.store cfg.itemName p
    let a := evaluateAnalytic cfg.reasonA cfg.price p
    Except.ok (WfState.mk Phase.done
      (PipelineSlots.mk (some p) (some h) (some a)
        (some (synthesize cfg.reasonS h a))))

/-- A concrete run configuration over an empty knowledge base, used to
exercise the workflow theorems: the spec §8 scenario (budget 500, designer
jacket at price 500). -/
def demoCfg : RunConfig :=
  RunConfig.mk
    (QuizSubmission.mk (some "low") (some 500) (some "mid") []
      (some "frugality"))
    "designer jacket" 500
    (fun s => HeuristicAssessment.mk HeuristicLabel.impulsive
      ["scarcity-tactic"] s)
    (fun s => s) (fun s => s) (fun _ => [1]) []

end Spec

end Truepick

/-- Claim C9: for every query string and every k, `retrieve_context` returns
`None` (the function body is an unimplemented stub), not the concatenated
context string its interface documents; likewise `ingest_knowledge_base`
returns `None` for every directory path rather than an integer chunk count. -/
theorem Truepick.Code.stubs_return_none :
    (∀ (query : String) (k : Nat), Truepick.Code.retrieve_context query k = none) ∧
    (∀ directory_path : String,
      Truepick.Code.ingest_knowledge_base directory_path = none) :=
  ⟨fun _ _ => rfl, fun _ => rfl⟩

/-- Claim C10: every workflow node (`node_profiler`, `node_psychologist`,
`node_decision_maker`, `node_synthesizer`) is deterministic: two invocations
with an identical `AgentState` produce identical output.  The embedded bodies
read no external state (each is the constant `None`), so the output is a pure
function of the argument. -/
theorem Truepick.Code.nodes_deterministic
    (s t : Truepick.Code.AgentState) (h : s = t) :
    Truepick.Code.node_profiler s = Truepick.Code.node_profiler t ∧
    Truepick.Code.node_psychologist s = Truepick.Code.node_psychologist t ∧
    Truepick.Code.node_decision_maker s = Truepick.Code.node_decision_maker t ∧
    Truepick.Code.node_synthesizer s = Truepick.Code.node_synthesizer t := by
  subst h
  exact ⟨rfl, rfl, rfl, rfl⟩

/-- Claim C1: for every pair of structured inputs (affordability boolean,
impulsive-flag boolean), the Synthesizer's output label is a pure function of
that pair per the resolution table in spec §4.7 (affordable & not impulsive ↦
approve; affordable & impulsive ↦ approve-with-caveats; not affordable & not
impulsive ↦ explore-compromise treated as approve-with-caveats; not affordable
& impulsive ↦ reject), independent of any rationale text: running `synthesize`
twice with identical structured inputs yields an identical label. -/
theorem Truepick.Spec.synthesize_label_table
    (r r' : String → String) (h h' : HeuristicAssessment)
    (a a' : AnalyticAssessment)
    (hi : impulsiveFlag h = impulsiveFlag h')
    (ha : a.affordable = a'.affordable) :
    (synthesize r h a).label = (synthesize r' h' a').label ∧
    (synthesize r h a).label = synthLabel a.affordable (impulsiveFlag h) ∧
    synthLabel true false = VerdictLabel.approve ∧
    synthLabel true true = VerdictLabel.approveWithCaveats ∧
    synthLabel false false = VerdictLabel.approveWithCaveats ∧
    synthLabel false true = VerdictLabel.reject := by
  refine ⟨?_, rfl, rfl, rfl, rfl, rfl⟩
  simp only [synthesize, hi, ha]

/-- Witness for C1: the purity theorem applied to two concrete assessment
pairs sharing the structured booleans but with different rationale text and a
different Reasoner. -/
theorem Truepick.Spec.synthesize_label_table_witness :
    impulsiveFlag ⟨HeuristicLabel.impulsive, ["scarcity"], "first rationale"⟩ =
      impulsiveFlag ⟨HeuristicLabel.impulsive, [], "second rationale"⟩ ∧
    (AnalyticAssessment.mk true "fits budget").affordable =
      (AnalyticAssessment.mk true "fine").affordable ∧
    ((synthesize id ⟨HeuristicLabel.impulsive, ["scarcity"], "first rationale"⟩
        (AnalyticAssessment.mk true "fits budget")).label =
      (synthesize (fun s => s ++ "!")
        ⟨HeuristicLabel.impulsive, [], "second rationale"⟩
        (AnalyticAssessment.mk true "fine")).label ∧
    (synthesize id ⟨HeuristicLabel.impulsive, ["scarcity"], "first rationale"⟩
        (AnalyticAssessment.mk true "fits budget")).label =
      synthLabel true
        (impulsiveFlag
          ⟨HeuristicLabel.impulsive, ["scarcity"], "first rationale"⟩) ∧
    synthLabel true false = VerdictLabel.approve ∧
    synthLabel true true = VerdictLabel.approveWithCaveats ∧
    synthLabel false false = VerdictLabel.approveWithCaveats ∧
    synthLabel false true = VerdictLabel.reject) :=
  ⟨rfl, rfl,
    Truepick.Spec.synthesize_label_table id (fun s => s ++ "!")
      ⟨HeuristicLabel.impulsive, ["scarcity"], "first rationale"⟩
      ⟨HeuristicLabel.impulsive, [], "second rationale"⟩
      (AnalyticAssessment.mk true "fits budget")
      (AnalyticAssessment.mk true "fine") rfl rfl⟩

/-- Claim C2: for every valid (price, budget) pair with price = budget, the
Analytic Evaluator's affordability boolean is true (inclusive-boundary policy
at the price = budget boundary). -/
theorem Truepick.Spec.affordable_at_boundary
    (reasoner : String → String) (price : ℚ) (p : PsychographicProfile)
    (hp : 0 ≤ price) (hb : 0 ≤ p.monthlyBudget)
    (h : price = p.monthlyBudget) :
    (evaluateAnalytic reasoner price p).affordable = true := by
  simp [evaluateAnalytic, affordability, h]

/-- Witness for C2: the inclusive-boundary theorem applied at price = budget =
500 (the spec §8 scenario). -/
theorem Truepick.Spec.affordable_at_boundary_witness :
    (0 : ℚ) ≤ 500 ∧
    (0 : ℚ) ≤ (PsychographicProfile.mk RiskTolerance.low 500 "mid" [] "v").monthlyBudget ∧
    (500 : ℚ) = (PsychographicProfile.mk RiskTolerance.low 500 "mid" [] "v").monthlyBudget ∧
    (evaluateAnalytic id 500
      (PsychographicProfile.mk RiskTolerance.low 500 "mid" [] "v")).affordable = true :=
  ⟨by norm_num, by norm_num, rfl,
    Truepick.Spec.affordable_at_boundary id 500
      (PsychographicProfile.mk RiskTolerance.low 500 "mid" [] "v")
      (by norm_num) (by norm_num) rfl⟩

/-- Claim C3: for every valid budget and every two prices p1 ≤ p2, the
Analytic Evaluator's affordability boolean is antitone in price: if the
verdict at p1 is false, the verdict at p2 is also false — increasing price
never flips the boolean from false to true. -/
theorem Truepick.Spec.affordability_antitone
    (reasoner : String → String) (p1 p2 : ℚ) (p : PsychographicProfile)
    (hp1 : 0 ≤ p1) (hb : 0 ≤ p.monthlyBudget) (h12 : p1 ≤ p2)
    (hfalse : (evaluateAnalytic reasoner p1 p).affordable = false) :
    (evaluateAnalytic reasoner p2 p).affordable = false := by
  simp only [evaluateAnalytic, affordability, decide_eq_false_iff_not] at hfalse ⊢
  exact fun hle => hfalse (le_trans h12 hle)

/-- Witness for C3: the antitonicity theorem applied at budget 200 with prices
300 ≤ 400. -/
theorem Truepick.Spec.affordability_antitone_witness :
    (0 : ℚ) ≤ 300 ∧
    (0 : ℚ) ≤ (PsychographicProfile.mk RiskTolerance.low 200 "mid" [] "v").monthlyBudget ∧
    (300 : ℚ) ≤ 400 ∧
    (evaluateAnalytic id 300
      (PsychographicProfile.mk RiskTolerance.low 200 "mid" [] "v")).affordable = false ∧
    (evaluateAnalytic id 400
      (PsychographicProfile.mk RiskTolerance.low 200 "mid" [] "v")).affordable = false :=
  ⟨by norm_num, by norm_num, by norm_num, by decide,
    Truepick.Spec.affordability_antitone id 300 400
      (PsychographicProfile.mk RiskTolerance.low 200 "mid" [] "v")
      (by norm_num) (by norm_num) (by norm_num) (by decide)⟩

/-- The Profile Compiler succeeds exactly on well-formed submissions. -/
theorem Truepick.Spec.compileProfile_isOk_iff (q : QuizSubmission) :
    (compileProfile q).isOk = true ↔ wellFormed q = true := by
  rcases q with ⟨ra, ba, ia, ta, va⟩
  cases ra with
    | none => simp [compileProfile, wellFormed, Except.isOk, Except.toBool]
    | some rs =>
      cases hp : parseRisk rs with
      | none => simp [compileProfile, wellFormed, hp, Except.isOk, Except.toBool]
      | some rt =>
        cases ba with
        | none => simp [compileProfile, wellFormed, hp, Except.isOk, Except.toBool]
        | some b =>
          by_cases hbneg : b < 0
          · simp [compileProfile, wellFormed, hp, hbneg, Except.isOk,
              Except.toBool, not_le.mpr hbneg]
          · cases ia with
            | none =>
              simp [compileProfile, wellFormed, hp, hbneg, Except.isOk,
                Except.toBool]
            | some inc =>
              cases va with
              | none =>
                simp [compileProfile, wellFormed, hp, hbneg, Except.isOk,
                  Except.toBool]
              | some v =>
                simp [compileProfile, wellFormed, hp, hbneg, Except.isOk,
                  Except.toBool, not_lt.mp hbneg]

/-- On a well-formed submission the Profile Compiler returns exactly the
fully-determined profile `profileOf q`. -/
theorem Truepick.Spec.compileProfile_ok_of_wellFormed (q : QuizSubmission)
    (hwf : wellFormed q = true) :
    compileProfile q = Except.ok (profileOf q) := by
  rcases q with ⟨ra, ba, ia, ta, va⟩
  cases ra with
    | none => simp [wellFormed] at hwf
    | some rs =>
      cases hp : parseRisk rs with
      | none => simp [wellFormed, hp] at hwf
      | some rt =>
        cases ba with
        | none => simp [wellFormed, hp] at hwf
        | some b =>
          by_cases hbneg : b < 0
          · simp [wellFormed, hp, not_le.mpr hbneg] at hwf
          · cases ia with
            | none => simp [wellFormed, hp] at hwf
            | some inc =>
              cases va with
              | none => simp [wellFormed, hp] at hwf
              | some v =>
                simp [compileProfile, hp, hbneg, profileOf]

/-- Claim C6: for every malformed or incomplete quiz answer set, the Profile
Compiler fails with a validation error and never produces a partially-filled
`PsychographicProfile` (success holds exactly on well-formed submissions); for
every well-formed answer set the result is the fully-determined profile
`profileOf q`, a deterministic pure function of the answers. -/
theorem Truepick.Spec.compileProfile_validates (q : QuizSubmission) :
    ((compileProfile q).isOk = true ↔ wellFormed q = true) ∧
    (wellFormed q = true → compileProfile q = Except.ok (profileOf q)) :=
  ⟨compileProfile_isOk_iff q, compileProfile_ok_of_wellFormed q⟩

/-- Witness for C6: the validation theorem applied at a concrete well-formed
submission (and its success branch discharged there). -/
theorem Truepick.Spec.compileProfile_validates_witness :
    wellFormed
      (QuizSubmission.mk (some "low") (some 300) (some "mid") ["scarcity"]
        (some "frugality")) = true ∧
    compileProfile
      (QuizSubmission.mk (some "low") (some 300) (some "mid") ["scarcity"]
        (some "frugality")) =
      Except.ok
        (profileOf
          (QuizSubmission.mk (some "low") (some 300) (some "mid") ["scarcity"]
            (some "frugality"))) :=
  ⟨by decide,
    (Truepick.Spec.compileProfile_validates
      (QuizSubmission.mk (some "low") (some 300) (some "mid") ["scarcity"]
        (some "frugality"))).2 (by decide)⟩

/-- Witness for C10: the determinism theorem applied at the concrete empty
agent state. -/
theorem Truepick.Code.nodes_deterministic_witness :
    Truepick.Code.node_profiler [] = Truepick.Code.node_profiler [] ∧
    Truepick.Code.node_psychologist [] = Truepick.Code.node_psychologist [] ∧
    Truepick.Code.node_decision_maker [] = Truepick.Code.node_decision_maker [] ∧
    Truepick.Code.node_synthesizer [] = Truepick.Code.node_synthesizer [] :=
  Truepick.Code.nodes_deterministic [] [] rfl

/-- The keys of an upserted store: unchanged when the id was present, extended
by the id otherwise. -/
theorem Truepick.Spec.keys_upsert (store : EmbeddingStore) (cid : String)
    (e : Entry) :
    keys (upsert store cid e) =
      if cid ∈ keys store then keys store else keys store ++ [cid] := by
  unfold upsert
  by_cases hmem : cid ∈ keys store
  · rw [if_pos hmem, if_pos hmem]
    unfold keys
    rw [List.map_map]
    refine List.map_congr_left (fun p _ => ?_)
    by_cases hpc : p.1 = cid
    · simp [Function.comp, hpc]
    · simp [Function.comp, hpc]
  · rw [if_neg hmem, if_neg hmem]
    unfold keys
    simp

/-- The upserted id is a key of the upserted store. -/
theorem Truepick.Spec.self_mem_keys_upsert (store : EmbeddingStore)
    (cid : String) (e : Entry) : cid ∈ keys (upsert store cid e) := by
  rw [keys_upsert]
  split
  · assumption
  · simp

/-- Existing keys survive a batch of upserts. -/
theorem Truepick.Spec.mem_keys_ingestStore {x : String} :
    ∀ (cs : List (String × Entry)) (store : EmbeddingStore),
      x ∈ keys store → x ∈ keys (ingestStore store cs)
  | [], _, h => h
  | c :: cs, store, h => by
    show x ∈ keys (ingestStore (upsert store c.1 c.2) cs)
    refine mem_keys_ingestStore cs _ ?_
    rw [keys_upsert]
    split
    · exact h
    · exact List.mem_append_left _ h

/-- After upserting `(cid, e)`, every entry keyed by `cid` is `(cid, e)`. -/
theorem Truepick.Spec.goodAt_upsert_self (store : EmbeddingStore)
    (cid : String) (e : Entry) : GoodAt (upsert store cid e) cid e := by
  unfold upsert GoodAt
  by_cases hmem : cid ∈ keys store
  · rw [if_pos hmem]
    intro p hp hpc
    rw [List.mem_map] at hp
    obtain ⟨q, hq, rfl⟩ := hp
    by_cases hqc : q.1 = cid
    · rw [if_pos hqc]
    · rw [if_neg hqc] at hpc ⊢
      exact absurd hpc hqc
  · rw [if_neg hmem]
    intro p hp hpc
    rcases List.mem_append.mp hp with hp | hp
    · refine absurd ?_ hmem
      rw [← hpc]
      exact List.mem_map_of_mem Prod.fst hp
    · rw [List.mem_singleton] at hp
      exact hp

/-- Upserting a different id preserves the `GoodAt` invariant. -/
theorem Truepick.Spec.goodAt_upsert_other {store : EmbeddingStore}
    {cid : String} {e : Entry} (cid' : String) (e' : Entry)
    (hne : cid' ≠ cid) (h : GoodAt store cid e) :
    GoodAt (upsert store cid' e') cid e := by
  unfold upsert
  by_cases hmem : cid' ∈ keys store
  · rw [if_pos hmem]
    intro p hp hpc
    rw [List.mem_map] at hp
    obtain ⟨q, hq, rfl⟩ := hp
    by_cases hqc : q.1 = cid'
    · rw [if_pos hqc] at hpc ⊢
      exact absurd hpc hne
    · rw [if_neg hqc] at hpc ⊢
      exact h q hq hpc
  · rw [if_neg hmem]
    intro p hp hpc
    rcases List.mem_append.mp hp with hp | hp
    · exact h p hp hpc
    · rw [List.mem_singleton] at hp
      subst hp
      exact absurd hpc hne

/-- A batch of upserts avoiding `cid` preserves the `GoodAt` invariant. -/
theorem Truepick.Spec.goodAt_ingestStore {cid : String} {e : Entry} :
    ∀ (cs : List (String × Entry)) (store : EmbeddingStore),
      cid ∉ cs.map Prod.fst → GoodAt store cid e →
      GoodAt (ingestStore store cs) cid e
  | [], _, _, h => h
  | c :: cs, store, hnin, h => by
    have hne : c.1 ≠ cid := by
      intro hc
      exact hnin (by simp [hc])
    have hnin2 : cid ∉ cs.map Prod.fst := by
      intro hc
      exact hnin (List.mem_cons_of_mem _ hc)
    exact goodAt_ingestStore cs (upsert store c.1 c.2) hnin2
      (goodAt_upsert_other c.1 c.2 hne h)

/-- Re-upserting an entry the store already holds (at a present key, with
every occurrence already equal to it) leaves the store unchanged. -/
theorem Truepick.Spec.upsert_eq_of_goodAt {store : EmbeddingStore}
    {cid : String} {e : Entry} (hmem : cid ∈ keys store)
    (h : GoodAt store cid e) : upsert store cid e = store := by
  unfold upsert
  rw [if_pos hmem]
  have hid : ∀ p ∈ store, (if p.1 = cid then (cid, e) else p) = p := by
    intro p hp
    by_cases hpc : p.1 = cid
    · rw [if_pos hpc, h p hp hpc]
    · rw [if_neg hpc]
  rw [List.map_congr_left hid]
  exact List.map_id store

/-- Replaying a batch of upserts with pairwise-distinct keys over a store that
already absorbed it leaves the store unchanged. -/
theorem Truepick.Spec.ingestStore_replay :
    ∀ (cs : List (String × Entry)), (cs.map Prod.fst).Nodup →
      ∀ store : EmbeddingStore,
        ingestStore (ingestStore store cs) cs = ingestStore store cs
  | [], _, _ => rfl
  | c :: cs, hnd, store => by
    rw [List.map_cons] at hnd
    have hnd2 := List.nodup_cons.mp hnd
    show ingestStore (ingestStore (upsert store c.1 c.2) cs) (c :: cs) =
      ingestStore (upsert store c.1 c.2) cs
    have hu : ingestStore (ingestStore (upsert store c.1 c.2) cs) (c :: cs) =
        ingestStore
          (upsert (ingestStore (upsert store c.1 c.2) cs) c.1 c.2) cs := rfl
    rw [hu]
    have hmem : c.1 ∈ keys (ingestStore (upsert store c.1 c.2) cs) :=
      mem_keys_ingestStore cs _ (self_mem_keys_upsert store c.1 c.2)
    have hgood : GoodAt (ingestStore (upsert store c.1 c.2) cs) c.1 c.2 :=
      goodAt_ingestStore cs _ hnd2.1 (goodAt_upsert_self store c.1 c.2)
    rw [upsert_eq_of_goodAt hmem hgood]
    exact ingestStore_replay cs hnd2.2 (upsert store c.1 c.2)

/-- Claim C4 (amended): for every query string and every k, the retrieval
operation returns at most k results, ordered descending by similarity score
(non-strictly: entries with equal scores may be adjacent); on an empty store
it returns an empty result, not an error; and the returned context string is
the chunk texts concatenated in descending-similarity order with the
deterministic separator. -/
theorem Truepick.Spec.retrieve_context_props (embed : String → List ℤ)
    (store : EmbeddingStore) (query : String) (k : Nat) :
    (retrieveCtx embed store query k).length ≤ k ∧
    List.Sorted (fun a b : ℤ => b ≤ a)
      ((retrieveCtx embed store query k).map Prod.snd) ∧
    retrieveCtx embed [] query k = [] ∧
    retrieve_context embed store query k =
      String.intercalate contextSep
        ((retrieveCtx embed store query k).map Prod.fst) := by
  refine ⟨?_, ?_, ?_, rfl⟩
  · unfold retrieveCtx
    rw [List.length_map, List.length_take]
    exact min_le_left _ _
  · have hs : List.Pairwise (rankRel (embed query))
        ((rank (embed query) store).take k) :=
      List.Pairwise.sublist (List.take_sublist k _)
        (List.sorted_insertionSort (rankRel (embed query)) store)
    unfold retrieveCtx
    show List.Pairwise _ _
    rw [List.pairwise_map, List.pairwise_map]
    exact hs
  · simp [retrieveCtx, rank]

/-- Counterexample for C4 as stated: with two stored chunks whose vectors are
identical, the similarity scores tie, so the retrieved results are not ordered
*strictly* descending by similarity score. -/
theorem Truepick.Spec.retrieve_context_not_strictly_descending :
    ¬ List.Chain' (fun a b : ℤ => b < a)
      ((retrieveCtx (fun _ => [1])
        [("chunk-a", Entry.mk [1] "text a"), ("chunk-b", Entry.mk [1] "text b")]
        "q" 3).map Prod.snd) := by
  have h : ((retrieveCtx (fun _ => [1])
      [("chunk-a", Entry.mk [1] "text a"), ("chunk-b", Entry.mk [1] "text b")]
      "q" 3).map Prod.snd) = [1, 1] := rfl
  rw [h]
  simp [List.chain'_cons]

/-- Claim C5: ingesting the same source directory twice yields the same chunk
count on each call and does not duplicate entries in the Embedding Store: each
chunk is upserted under a stable id derived from (source file, chunk index),
so re-ingestion replaces rather than appends — the store after the second
ingestion equals the store after the first. -/
theorem Truepick.Spec.ingest_idempotent (embed : String → List ℤ)
    (store : EmbeddingStore) (dir : List SrcFile)
    (hnd : ((chunksOfDir embed dir).map Prod.fst).Nodup) :
    (ingest_knowledge_base embed
        (ingest_knowledge_base embed store dir).1 dir).2 =
      (ingest_knowledge_base embed store dir).2 ∧
    (ingest_knowledge_base embed
        (ingest_knowledge_base embed store dir).1 dir).1 =
      (ingest_knowledge_base embed store dir).1 :=
  ⟨rfl, ingestStore_replay (chunksOfDir embed dir) hnd store⟩

/-- Witness for C5: the idempotence theorem applied to a concrete one-file
knowledge base ingested into the empty store. -/
theorem Truepick.Spec.ingest_idempotent_witness :
    ((chunksOfDir (fun s => [(s.length : ℤ)])
        [SrcFile.mk "kb.txt" "impulse buying"]).map Prod.fst).Nodup ∧
    ((ingest_knowledge_base (fun s => [(s.length : ℤ)])
        (ingest_knowledge_base (fun s => [(s.length : ℤ)]) []
          [SrcFile.mk "kb.txt" "impulse buying"]).1
        [SrcFile.mk "kb.txt" "impulse buying"]).2 =
      (ingest_knowledge_base (fun s => [(s.length : ℤ)]) []
        [SrcFile.mk "kb.txt" "impulse buying"]).2 ∧
    (ingest_knowledge_base (fun s => [(s.length : ℤ)])
        (ingest_knowledge_base (fun s => [(s.length : ℤ)]) []
          [SrcFile.mk "kb.txt" "impulse buying"]).1
        [SrcFile.mk "kb.txt" "impulse buying"]).1 =
      (ingest_knowledge_base (fun s => [(s.length : ℤ)]) []
        [SrcFile.mk "kb.txt" "impulse buying"]).1) :=
  ⟨by decide,
    Truepick.Spec.ingest_idempotent (fun s => [(s.length : ℤ)]) []
      [SrcFile.mk "kb.txt" "impulse buying"] (by decide)⟩

/-- Claim C7: for every item name and profile, when the knowledge base is
empty the Heuristic Evaluator still produces a HeuristicAssessment by
degrading to profile-only reasoning rather than failing, and the workflow run
still completes, with the heuristic slot populated by the degraded-path
assessment. -/
theorem Truepick.Spec.heuristic_degraded_on_empty_store (cfg : RunConfig)
    (p : PsychographicProfile) (hstore : cfg.store = [])
    (hq : wellFormed cfg.quiz = true) :
    heuristicAssess cfg.reasonH cfg.embed cfg.store cfg.itemName p =
      cfg.reasonH (profileOnlyPrompt cfg.itemName p) ∧
    runWorkflow cfg =
      Except.ok (WfState.mk Phase.done
        (PipelineSlots.mk (some (profileOf cfg.quiz))
          (some (cfg.reasonH
            (profileOnlyPrompt cfg.itemName (profileOf cfg.quiz))))
          (some (evaluateAnalytic cfg.reasonA cfg.price (profileOf cfg.quiz)))
          (some (synthesize cfg.reasonS
            (cfg.reasonH
              (profileOnlyPrompt cfg.itemName (profileOf cfg.quiz)))
            (evaluateAnalytic cfg.reasonA cfg.price
              (profileOf cfg.quiz)))))) := by
  have h1 : ∀ pr : PsychographicProfile,
      heuristicAssess cfg.reasonH cfg.embed cfg.store cfg.itemName pr =
        cfg.reasonH (profileOnlyPrompt cfg.itemName pr) := by
    intro pr
    rw [hstore]
    simp [heuristicAssess, retrieveCtx, rank]
  refine ⟨h1 p, ?_⟩
  have hok := compileProfile_ok_of_wellFormed cfg.quiz hq
  simp only [runWorkflow, hok]
  rw [h1 (profileOf cfg.quiz)]

/-- Witness for C7: the degraded-context theorem applied at the concrete
`demoCfg` run configuration, whose Embedding Store is empty. -/
theorem Truepick.Spec.heuristic_degraded_on_empty_store_witness :
    heuristicAssess demoCfg.reasonH demoCfg.embed demoCfg.store
      demoCfg.itemName (profileOf demoCfg.quiz) =
      demoCfg.reasonH
        (profileOnlyPrompt demoCfg.itemName (profileOf demoCfg.quiz)) ∧
    (runWorkflow demoCfg).isOk = true := by
  have h := Truepick.Spec.heuristic_degraded_on_empty_store demoCfg
    (profileOf demoCfg.quiz) rfl (by decide)
  exact ⟨h.1, by rw [h.2]; rfl⟩

/-- One workflow step preserves the join invariant: a populated synthesis
slot implies both parallel evaluator slots are populated. -/
theorem Truepick.Spec.step_preserves_joinInv {cfg : RunConfig}
    {s t : WfState} (hst : Step cfg s t)
    (hs : s.slots.synthesis.isSome = true →
      s.slots.heuristic.isSome = true ∧ s.slots.analytic.isSome = true) :
    t.slots.synthesis.isSome = true →
      t.slots.heuristic.isSome = true ∧ t.slots.analytic.isSome = true := by
  cases hst with
  | profile sl p hp =>
    intro h
    exact hs h
  | fanOut sl =>
    exact hs
  | heuristicBranch sl p hp hempty =>
    intro h
    exact ⟨rfl, (hs h).2⟩
  | analyticBranch sl p hp hempty =>
    intro h
    exact ⟨(hs h).1, rfl⟩
  | join sl h a hh ha =>
    intro hsome
    refine ⟨?_, ?_⟩
    · rw [hh]
      rfl
    · rw [ha]
      rfl
  | finish sl =>
    exact hs

/-- In every reachable workflow state, a populated synthesis slot implies
both parallel evaluator slots are populated. -/
theorem Truepick.Spec.reachable_joinInv {cfg : RunConfig} {s : WfState}
    (h : Reachable cfg s) :
    s.slots.synthesis.isSome = true →
      s.slots.heuristic.isSome = true ∧ s.slots.analytic.isSome = true := by
  unfold Reachable at h
  induction h with
  | refl =>
    intro hsyn
    simp [initState] at hsyn
  | tail hreach hstep ih =>
    exact step_preserves_joinInv hstep ih

/-- Claim C8: in every execution of the workflow, the Synthesizer never runs
before both parallel branches (Heuristic and Analytic Evaluators) have
completed and populated their disjoint output slots: in every state reachable
from the initial state, a populated synthesis slot implies both parallel
slots are populated — the transition into `synthesized` is gated on a full
join barrier, with no partial synthesis. -/
theorem Truepick.Spec.synthesis_gated_on_join (cfg : RunConfig) (s : WfState)
    (hreach : Reachable cfg s) (hsyn : s.slots.synthesis.isSome = true) :
    s.slots.heuristic.isSome = true ∧ s.slots.analytic.isSome = true :=
  reachable_joinInv hreach hsyn

/-- Witness for C8: the join-barrier theorem applied to the concrete state
reached by the trace profile, fan-out, heuristic branch, analytic branch,
join under `demoCfg`. -/
theorem Truepick.Spec.synthesis_gated_on_join_witness :
    (WfState.mk Phase.synthesized
      (PipelineSlots.mk (some (profileOf demoCfg.quiz))
        (some (heuristicAssess demoCfg.reasonH demoCfg.embed demoCfg.store
          demoCfg.itemName (profileOf demoCfg.quiz)))
        (some (evaluateAnalytic demoCfg.reasonA demoCfg.price
          (profileOf demoCfg.quiz)))
        (some (synthesize demoCfg.reasonS
          (heuristicAssess demoCfg.reasonH demoCfg.embed demoCfg.store
            demoCfg.itemName (profileOf demoCfg.quiz))
          (evaluateAnalytic demoCfg.reasonA demoCfg.price
            (profileOf demoCfg.quiz)))))).slots.heuristic.isSome = true ∧
    (WfState.mk Phase.synthesized
      (PipelineSlots.mk (some (profileOf demoCfg.quiz))
        (some (heuristicAssess demoCfg.reasonH demoCfg.embed demoCfg.store
          demoCfg.itemName (profileOf demoCfg.quiz)))
        (some (evaluateAnalytic demoCfg.reasonA demoCfg.price
          (profileOf demoCfg.quiz)))
        (some (synthesize demoCfg.reasonS
          (heuristicAssess demoCfg.reasonH demoCfg.embed demoCfg.store
            demoCfg.itemName (profileOf demoCfg.quiz))
          (evaluateAnalytic demoCfg.reasonA demoCfg.price
            (profileOf demoCfg.quiz)))))).slots.analytic.isSome = true := by
  refine Truepick.Spec.synthesis_gated_on_join demoCfg _ ?_ rfl
  have hp : compileProfile demoCfg.quiz =
      Except.ok (profileOf demoCfg.quiz) :=
    compileProfile_ok_of_wellFormed demoCfg.quiz (by decide)
  exact Relation.ReflTransGen.head
    (Step.profile (PipelineSlots.mk none none none none)
      (profileOf demoCfg.quiz) hp)
    (Relation.ReflTransGen.head
      (Step.fanOut (PipelineSlots.mk (some (profileOf demoCfg.quiz))
        none none none))
      (Relation.ReflTransGen.head
        (Step.heuristicBranch
          (PipelineSlots.mk (some (profileOf demoCfg.quiz)) none none none)
          (profileOf demoCfg.quiz) rfl rfl)
        (Relation.ReflTransGen.head
          (Step.analyticBranch
            (PipelineSlots.mk (some (profileOf demoCfg.quiz))
              (some (heuristicAssess demoCfg.reasonH demoCfg.embed
                demoCfg.store demoCfg.itemName (profileOf demoCfg.quiz)))
              none none)
            (profileOf demoCfg.quiz) rfl rfl)
          (Relation.ReflTransGen.head
            (Step.join
              (PipelineSlots.mk (some (profileOf demoCfg.quiz))
                (some (heuristicAssess demoCfg.reasonH demoCfg.embed
                  demoCfg.store demoCfg.itemName (profileOf demoCfg.quiz)))
                (some (evaluateAnalytic demoCfg.reasonA demoCfg.price
                  (profileOf demoCfg.quiz)))
                none)
              (heuristicAssess demoCfg.reasonH demoCfg.embed demoCfg.store
                demoCfg.itemName (profileOf demoCfg.quiz))
              (evaluateAnalytic demoCfg.reasonA demoCfg.price
                (profileOf demoCfg.quiz))
              rfl rfl)
            Relation.ReflTransGen.refl))))
